import Mathlib

/-!
Verification of `src/mash/CommandSketch.cpp` (the `mash sketch` command driver)
as a shallow embedding in Lean 4.

Modelling conventions:
* C++ `double` option values (`warning`, `minCov`, `targetCov`) are modelled as
  exact rationals (`ℚ`); integer option values as `Nat`.
* The `Sketch` engine (`Sketch.h` / `Sketch.cpp`, not part of the sources here)
  is treated as an oracle: `run` receives the list of built references, each
  carrying the data the command reads back from the engine
  (`Reference::name`, `Reference::length`, `getRandomKmerChance`,
  `getMinKmerSize`).
* Side effects (printing usage, error messages, `writeToCapnp`, `exit`)
  are reified in the `RunResult` type; the returned process code of each
  outcome is `returnCode`.
-/

namespace MashSketch

/-- The option state of `CommandSketch` after CLI parsing: one field per option
registered in the constructor (lines 21-39), with the active flags and the
numeric/string arguments read in `run` (lines 44-65).  `oArg` is the argument
of the "prefix" / `-o` option, empty when the option was not given. -/
structure Opts where
  help : Bool
  list : Bool
  oArg : String
  kmer : Nat
  sketchSize : Nat
  individual : Bool
  warning : ℚ
  reads : Bool
  minCovActive : Bool
  minCov : ℚ
  targetCov : ℚ
  noncanonical : Bool
  threads : Nat
deriving DecidableEq

/-- The `Sketch::Parameters` record as filled in by `CommandSketch::run`
(lines 53-70).  The `protein` field is never assigned by this command; it
keeps the default that the engine gave it, so it is a parameter of the
model. -/
structure Params where
  kmerSize : Nat
  minHashesPerWindow : Nat
  concatenated : Bool
  noncanonical : Bool
  reads : Bool
  minCov : ℚ
  targetCov : ℚ
  windowed : Bool
  windowSize : Nat
  warning : ℚ
  parallelism : Nat
  protein : Bool
deriving DecidableEq

/-- Lines 53-70: building the effective `Parameters` from the options,
including the `minCov ⇒ reads` override of lines 67-70. -/
def buildParams (o : Opts) (protein : Bool) : Params :=
  { kmerSize := o.kmer
    minHashesPerWindow := o.sketchSize
    concatenated := !o.individual
    noncanonical := o.noncanonical
    reads := if o.minCovActive then true else o.reads
    minCov := o.minCov
    targetCov := o.targetCov
    windowed := false
    windowSize := 0
    warning := o.warning
    parallelism := o.threads
    protein := protein }

/-- Modelled from the spec: one reference of the built sketch, together with
the per-reference data the command queries from the engine:
`sketch.getReference(i).name / .length` (lines 120, 127),
`sketch.getRandomKmerChance(i)` (line 128) and `sketch.getMinKmerSize(i)`
(line 129).  The engine (`Sketch.cpp`) is outside the sources being verified,
so these are oracle data. -/
structure SketchRef where
  name : String
  length : Nat
  randomChance : ℚ
  kMin : Nat
deriving DecidableEq

/-- Line 95: `parameters.protein ? 20 : 4`. -/
def alphabetSize (p : Params) : Nat :=
  if p.protein then 20 else 4

/-- Line 95: `uint64_t lengthThreshold = (parameters.warning * pow(alphabet,
kmerSize)) / (1. - parameters.warning);` - the double result is truncated by
the conversion to `uint64_t`, which is the floor for the non-negative values
arising from a warning probability in `[0,1)`. -/
def lengthThreshold (p : Params) : Nat :=
  ⌊p.warning * (alphabetSize p : ℚ) ^ p.kmerSize / (1 - p.warning)⌋₊

/-- The mutable locals of the warning scan (lines 96-100): `lengthMax`,
`lengthMaxName`, `randomChance`, `kMin`, `warningCount`.  In the C++ only
`warningCount` is initialised; the others are first read only after being
written (guarded by `warningCount == 0`), so the model may start them at
arbitrary defaults. -/
structure WarnState where
  lengthMax : Nat
  lengthMaxName : String
  randomChance : ℚ
  kMin : Nat
  warningCount : Nat
deriving DecidableEq

def warnInit : WarnState :=
  { lengthMax := 0, lengthMaxName := "", randomChance := 0, kMin := 0
    warningCount := 0 }

/-- The body of the scan loop (lines 118-134) for one reference. -/
def warnStep (t : Nat) (s : WarnState) (r : SketchRef) : WarnState :=
  if t < r.length then
    let s' :=
      if s.warningCount = 0 ∨ s.lengthMax < r.length then
        { lengthMax := r.length, lengthMaxName := r.name
          randomChance := r.randomChance, kMin := r.kMin
          warningCount := s.warningCount }
      else s
    { s' with warningCount := s'.warningCount + 1 }
  else s

/-- The whole scan loop over the sketch's references (lines 118-134). -/
def adequacyScan (p : Params) (refs : List SketchRef) : WarnState :=
  refs.foldl (warnStep (lengthThreshold p)) warnInit

/-- Modelled from the spec: `splitFile` (declared in the utility unit, which is
not among the sources) reads a list file and appends its lines, each a
sequence-file path, to `files`; the file system is the map `env` from file
names to their lines. -/
def splitFile (env : String → List String) (fileName : String)
    (files : List String) : List String :=
  files ++ env fileName

/-- The argument-expansion loop of lines 102-114. -/
def expandFiles (list : Bool) (env : String → List String)
    (args : List String) : List String :=
  args.foldl (fun fs a => if list then splitFile env a fs else fs ++ [a]) []

/-- Modelled from the spec: `hasSuffix` (utility unit, not among the sources)
tests whether a string ends with the given suffix; stated on the character
lists of the strings. -/
def hasSuffix (s sfx : String) : Bool :=
  decide (sfx.data <:+ s.data)

/-- Modelled from the spec: the sketch file suffix `suffixSketch` is `".msh"`
("the output file name will be the first input file with a '.msh' extension"). -/
def suffixSketch : String := ".msh"

/-- Modelled from the spec: the windowed suffix constant.  It is never used by
this command, since `windowed` is hardcoded `false`; its exact value is
immaterial to every claim. -/
def suffixSketchWindowed : String := ".msw"

/-- Lines 84-91: the already-sketched rejection loop; note the guard is
literally `false && hasSuffix(arguments[i], suffixSketch)`. -/
def alreadySketchedGuard (args : List String) : Bool :=
  args.any fun a => false && hasSuffix a suffixSketch

/-- Lines 136-159: derivation of the output file path from the "prefix"
option's argument and `arguments[0]`. -/
def outPathOf (oArg : String) (arg0 : String) (windowed : Bool) : String :=
  let pfx := if 0 < oArg.length then oArg
             else if arg0 = "-" then "stdin" else arg0
  let sfx := if windowed then suffixSketchWindowed else suffixSketch
  if hasSuffix pfx sfx then pfx else pfx ++ sfx

/-- Lines 165-168: the guarded call
`sketch.warnKmerSize(lengthMax, lengthMaxName, randomChance, kMin,
warningCount)`, reified as the scan state it reports, or `none` when the call
is skipped. -/
def warnCallOf (p : Params) (refs : List SketchRef) : Option WarnState :=
  let s := adequacyScan p refs
  if 0 < s.warningCount ∧ p.reads = false then some s else none

/-- The observable outcome of `CommandSketch::run`: `usage` is the
print-and-return-0 path of lines 44-48, the three error constructors are the
early exits of lines 72-76, 78-82 and 86-90, and `done` is the normal path,
carrying the expanded file list passed to `initFromFiles` (line 116), the
output path written by `writeToCapnp` (line 163) and the `warnKmerSize` call
of lines 165-168 (if made). -/
inductive RunResult where
  | usage
  | errReadIndividual
  | errConcatWindowed
  | errAlreadySketched
  | done (files : List String) (outFile : String) (warnOut : Option WarnState)
deriving DecidableEq

/-- The process exit code of each outcome: 0 for the usage path (line 47) and
the normal path (line 170), 1 for the two config errors (lines 75, 81) and for
the `exit(1)` of line 89. -/
def returnCode : RunResult → Nat
  | RunResult.usage => 0
  | RunResult.errReadIndividual => 1
  | RunResult.errConcatWindowed => 1
  | RunResult.errAlreadySketched => 1
  | RunResult.done _ _ _ => 0

/-- The sketch file written, if any: only the normal path reaches
`writeToCapnp` (line 163). -/
def writtenFile : RunResult → Option String
  | RunResult.done _ out _ => some out
  | _ => none

/-- The function `CommandSketch::run` (lines 42-171).  `env` is the file
system seen by `splitFile`; `refs` is the reference list the sketch engine
builds from the expanded files (oracle, see `SketchRef`); `protein` is the
engine default of `Parameters::protein`. -/
def run (o : Opts) (args : List String) (env : String → List String)
    (refs : List SketchRef) (protein : Bool) : RunResult :=
  if args.isEmpty || o.help then RunResult.usage
  else
    let p := buildParams o protein
    if p.reads && !p.concatenated then RunResult.errReadIndividual
    else if p.concatenated && p.windowed then RunResult.errConcatWindowed
    else if alreadySketchedGuard args then RunResult.errAlreadySketched
    else
      RunResult.done (expandFiles o.list env args)
        (outPathOf o.oArg (args.headD "") p.windowed)
        (warnCallOf p refs)

/-! Concrete inputs used by the witness theorems. -/

def emptyFS : String → List String := fun _ => []

def oC1 : Opts :=
  { help := false, list := false, oArg := "", kmer := 21, sketchSize := 1000
    individual := true, warning := 1/100, reads := true, minCovActive := false
    minCov := 1, targetCov := 0, noncanonical := false, threads := 1 }

def oC2 : Opts :=
  { help := false, list := false, oArg := "", kmer := 21, sketchSize := 1000
    individual := false, warning := 1/100, reads := false, minCovActive := true
    minCov := 2, targetCov := 0, noncanonical := false, threads := 1 }

def oC6 : Opts :=
  { help := false, list := false, oArg := "", kmer := 21, sketchSize := 1000
    individual := false, warning := 1/100, reads := false, minCovActive := false
    minCov := 1, targetCov := 0, noncanonical := false, threads := 1 }

/-! The adequacy-scan invariant used to settle C4. -/

def flaggedCount (t : Nat) (l : List SketchRef) : Nat :=
  (l.filter fun r => decide (t < r.length)).length

/-- Invariant of the scan loop after the references in `seen` have been
processed: the counter counts the flagged ones, and as soon as it is positive
the remembered fields come from a flagged reference of maximal length. -/
def WarnInv (t : Nat) (seen : List SketchRef) (s : WarnState) : Prop :=
  s.warningCount = flaggedCount t seen ∧
  (0 < s.warningCount →
    (∃ r ∈ seen, t < r.length ∧ s.lengthMax = r.length ∧
      s.lengthMaxName = r.name ∧ s.randomChance = r.randomChance ∧ s.kMin = r.kMin) ∧
    ∀ r ∈ seen, t < r.length → r.length ≤ s.lengthMax)


def pC3 : Params :=
  { kmerSize := 2, minHashesPerWindow := 1000, concatenated := true
    noncanonical := false, reads := false, minCov := 1, targetCov := 0
    windowed := false, windowSize := 0, warning := 1/100, parallelism := 1
    protein := false }

def rC3 : SketchRef := { name := "seq1", length := 1, randomChance := 0, kMin := 3 }

def oC4 : Opts :=
  { help := false, list := false, oArg := "", kmer := 2, sketchSize := 1000
    individual := false, warning := 1/100, reads := false, minCovActive := false
    minCov := 1, targetCov := 0, noncanonical := false, threads := 1 }

def refsC4 : List SketchRef :=
  [{ name := "a", length := 5, randomChance := 1/2, kMin := 3 },
   { name := "b", length := 9, randomChance := 1/3, kMin := 4 }]

def wC4 : WarnState :=
  { lengthMax := 9, lengthMaxName := "b", randomChance := 1/3, kMin := 4
    warningCount := 2 }

def oC5 : Opts :=
  { help := false, list := false, oArg := "", kmer := 21, sketchSize := 1000
    individual := false, warning := 1/100, reads := false, minCovActive := false
    minCov := 1, targetCov := 0, noncanonical := false, threads := 1 }

def oC7 : Opts :=
  { help := false, list := true, oArg := "", kmer := 21, sketchSize := 1000
    individual := false, warning := 1/100, reads := false, minCovActive := false
    minCov := 1, targetCov := 0, noncanonical := false, threads := 1 }

def envC7 : String → List String :=
  fun a => if a = "lst1" then ["f1.fasta", "f2.fasta"] else ["f3.fasta"]

def oC10 : Opts :=
  { help := false, list := false, oArg := "", kmer := 21, sketchSize := 1000
    individual := false, warning := 1/100, reads := false, minCovActive := false
    minCov := 1, targetCov := 0, noncanonical := false, threads := 1 }


/-! Helper lemmas shared by the claim theorems. -/

/-- When the usage path and the read/individual config error are not taken,
`run` reaches the normal path; the two remaining guards (concatenated with
windowed, already-sketched) can never fire. -/
theorem run_eq_done (o : Opts) (args : List String) (env : String → List String)
    (refs : List SketchRef) (protein : Bool)
    (h1 : (args.isEmpty || o.help) = false)
    (h2 : ((buildParams o protein).reads && !(buildParams o protein).concatenated) = false) :
    run o args env refs protein =
      RunResult.done (expandFiles o.list env args)
        (outPathOf o.oArg (args.headD "") false)
        (warnCallOf (buildParams o protein) refs) := by
  have hg : alreadySketchedGuard args = false := by
    simp [alreadySketchedGuard]
  have hw : (buildParams o protein).windowed = false := rfl
  simp only [run, h1, h2, hg, hw, Bool.false_eq_true, if_false, Bool.and_false]

/-- Inversion: a `done` outcome determines its three payloads and implies that
the guards did not fire. -/
theorem run_done_inv (o : Opts) (args : List String) (env : String → List String)
    (refs : List SketchRef) (protein : Bool) (f : List String) (out : String)
    (w : Option WarnState)
    (h : run o args env refs protein = RunResult.done f out w) :
    (args.isEmpty || o.help) = false ∧
    ((buildParams o protein).reads && !(buildParams o protein).concatenated) = false ∧
    f = expandFiles o.list env args ∧
    out = outPathOf o.oArg (args.headD "") false ∧
    w = warnCallOf (buildParams o protein) refs := by
  by_cases h1 : (args.isEmpty || o.help) = true
  · rw [run, if_pos h1] at h
    exact absurd h (by simp)
  · have h1' : (args.isEmpty || o.help) = false := by
      revert h1; cases args.isEmpty || o.help <;> simp
    by_cases h2 : ((buildParams o protein).reads && !(buildParams o protein).concatenated) = true
    · have : run o args env refs protein = RunResult.errReadIndividual := by
        simp only [run, h1', Bool.false_eq_true, if_false, h2, if_true]
      rw [this] at h
      exact absurd h (by simp)
    · have h2' : ((buildParams o protein).reads && !(buildParams o protein).concatenated) = false := by
        revert h2
        cases (buildParams o protein).reads && !(buildParams o protein).concatenated <;> simp
      have := run_eq_done o args env refs protein h1' h2'
      rw [this] at h
      injection h with e1 e2 e3
      exact ⟨h1', h2', e1.symm, e2.symm, e3.symm⟩

/-! The claim theorems. -/

/-- C1: whenever the effective parameters have read mode on and the individual
option was selected (so the sketch is not concatenated), `run` stops with the
read/individual configuration error: the result code is 1 and no sketch file
is written, for every file system and every oracle reference list - in
particular before any sketching work. -/
theorem read_individual_config_error (o : Opts) (args : List String)
    (env : String → List String) (refs : List SketchRef) (protein : Bool)
    (hargs : args ≠ []) (hhelp : o.help = false)
    (hreads : (buildParams o protein).reads = true)
    (hindiv : o.individual = true) :
    run o args env refs protein = RunResult.errReadIndividual ∧
    returnCode (run o args env refs protein) = 1 ∧
    writtenFile (run o args env refs protein) = none := by
  have h1 : run o args env refs protein = RunResult.errReadIndividual := by
    have hne : args.isEmpty = false := by
      cases args with
      | nil => exact absurd rfl hargs
      | cons a l => rfl
    have hcat : (buildParams o protein).concatenated = false := by
      simp [buildParams, hindiv]
    simp only [run, hne, hhelp, Bool.or_self, Bool.false_eq_true, if_false,
      hreads, hcat, Bool.not_false, Bool.and_self, if_true]
  exact ⟨h1, by rw [h1]; rfl, by rw [h1]; rfl⟩

theorem read_individual_config_error_witness :
    run oC1 ["a.fasta"] emptyFS [] false = RunResult.errReadIndividual ∧
    returnCode (run oC1 ["a.fasta"] emptyFS [] false) = 1 ∧
    writtenFile (run oC1 ["a.fasta"] emptyFS [] false) = none :=
  read_individual_config_error oC1 ["a.fasta"] emptyFS [] false
    (by simp) rfl rfl rfl

/-- C2: if the minCov option was given, the effective parameters have read
mode on, whether or not the reads option was given. -/
theorem minCov_forces_read_mode (o : Opts) (protein : Bool)
    (h : o.minCovActive = true) :
    (buildParams o protein).reads = true := by
  simp [buildParams, h]

theorem minCov_forces_read_mode_witness :
    oC2.minCovActive = true ∧ oC2.reads = false ∧
    (buildParams oC2 false).reads = true :=
  ⟨rfl, rfl, minCov_forces_read_mode oC2 false rfl⟩

/-- C6 counterexample: with zero input arguments the command does not report
an error - it prints its usage and returns 0 (success). -/
theorem empty_args_returns_success :
    run oC6 [] emptyFS [] false = RunResult.usage ∧
    returnCode (run oC6 [] emptyFS [] false) = 0 :=
  ⟨rfl, rfl⟩

/-- C6 amended: invoking the sketch command with zero input arguments prints
the usage text and returns 0 (success); no sketching occurs and no sketch
file is written. -/
theorem empty_args_prints_usage (o : Opts) (env : String → List String)
    (refs : List SketchRef) (protein : Bool) :
    run o [] env refs protein = RunResult.usage ∧
    returnCode (run o [] env refs protein) = 0 ∧
    writtenFile (run o [] env refs protein) = none := by
  refine ⟨?_, ?_, ?_⟩ <;> simp [run, returnCode, writtenFile]

/-- C8: the already-sketched guard is disabled (its condition is the constant
`false` conjoined with the suffix test), so no argument list is ever rejected
for carrying the sketch suffix. -/
theorem already_sketched_guard_disabled (o : Opts) (args : List String)
    (env : String → List String) (refs : List SketchRef) (protein : Bool) :
    alreadySketchedGuard args = false ∧
    run o args env refs protein ≠ RunResult.errAlreadySketched := by
  have hg : alreadySketchedGuard args = false := by
    simp [alreadySketchedGuard]
  refine ⟨hg, ?_⟩
  simp only [run, hg]
  split
  · simp
  · split
    · simp
    · split
      · simp
      · simp

/-- C9: the effective parameters always have `windowed = false` and
`windowSize = 0`, the concatenated-with-windowed error branch is unreachable,
and the suffix chosen for the output file is always the non-windowed sketch
suffix. -/
theorem windowed_always_off (o : Opts) (args : List String)
    (env : String → List String) (refs : List SketchRef) (protein : Bool) :
    (buildParams o protein).windowed = false ∧
    (buildParams o protein).windowSize = 0 ∧
    run o args env refs protein ≠ RunResult.errConcatWindowed ∧
    (if (buildParams o protein).windowed then suffixSketchWindowed
     else suffixSketch) = suffixSketch := by
  refine ⟨rfl, rfl, ?_, rfl⟩
  have hw : (buildParams o protein).windowed = false := rfl
  simp only [run, hw, Bool.and_false]
  split
  · simp
  · split
    · simp
    · simp only [Bool.false_eq_true, if_false]
      split
      · simp
      · simp

/-- Closed form of the expansion loop: with the list option every argument
contributes its lines, otherwise the arguments pass through unchanged. -/
theorem expandFiles_go (list : Bool) (env : String → List String) :
    ∀ (args acc : List String),
      args.foldl (fun fs a => if list then splitFile env a fs else fs ++ [a]) acc =
        acc ++ if list then (args.map env).flatten else args
  | [], acc => by simp
  | a :: args, acc => by
      rw [List.foldl_cons, expandFiles_go list env args]
      cases list <;> simp [splitFile]

theorem expandFiles_eq (list : Bool) (env : String → List String)
    (args : List String) :
    expandFiles list env args = if list then (args.map env).flatten else args := by
  simpa using expandFiles_go list env args []

/-- C7: on the normal path the file list handed to the sketch engine is the
line-by-line expansion of every argument when the list option is set, and the
arguments themselves, in the order given, when it is not. -/
theorem list_option_expands_files (o : Opts) (args : List String)
    (env : String → List String) (refs : List SketchRef) (protein : Bool)
    (f : List String) (out : String) (w : Option WarnState)
    (h : run o args env refs protein = RunResult.done f out w) :
    f = if o.list then (args.map env).flatten else args := by
  obtain ⟨-, -, hf, -, -⟩ := run_done_inv o args env refs protein f out w h
  rw [hf, expandFiles_eq]

theorem list_option_expands_files_witness :
    run oC7 ["lst1", "lst2"] envC7 [] false =
      RunResult.done ["f1.fasta", "f2.fasta", "f3.fasta"] "lst1.msh" none ∧
    ["f1.fasta", "f2.fasta", "f3.fasta"] =
      if oC7.list then ((["lst1", "lst2"].map envC7).flatten) else ["lst1", "lst2"] :=
  ⟨rfl, list_option_expands_files oC7 ["lst1", "lst2"] envC7 [] false
    ["f1.fasta", "f2.fasta", "f3.fasta"] "lst1.msh" none rfl⟩

/-- C5: the adequacy warning is advisory and never fatal - a run that reaches
the normal path returns 0, and replacing the oracle references (hence any
flagging outcome) still returns 0; moreover when read mode is on the warning
call is never made. -/
theorem adequacy_warning_advisory (o : Opts) (args : List String)
    (env : String → List String) (refs : List SketchRef) (protein : Bool)
    (f : List String) (out : String) (w : Option WarnState)
    (h : run o args env refs protein = RunResult.done f out w) :
    returnCode (run o args env refs protein) = 0 ∧
    ((buildParams o protein).reads = true → w = none) ∧
    (∀ refs' : List SketchRef, returnCode (run o args env refs' protein) = 0) := by
  obtain ⟨h1, h2, -, -, hw⟩ := run_done_inv o args env refs protein f out w h
  refine ⟨by rw [h]; rfl, ?_, ?_⟩
  · intro hreads
    rw [hw]
    unfold warnCallOf
    rw [if_neg]
    intro hcond
    rw [hreads] at hcond
    exact absurd hcond.2 (by simp)
  · intro refs'
    rw [run_eq_done o args env refs' protein h1 h2]
    rfl

theorem adequacy_warning_advisory_witness :
    returnCode (run oC5 ["a.fasta"] emptyFS [] false) = 0 ∧
    ((buildParams oC5 false).reads = true → (none : Option WarnState) = none) ∧
    (∀ refs' : List SketchRef, returnCode (run oC5 ["a.fasta"] emptyFS refs' false) = 0) :=
  adequacy_warning_advisory oC5 ["a.fasta"] emptyFS [] false
    ["a.fasta"] "a.fasta.msh" none rfl

/-- C10: the output path of a successful run is a function of the "prefix"
option's argument and the first input argument alone - later arguments (and
the file system and oracle) never influence it - namely: the option's argument
if given, else the first argument (or "stdin" when that argument is "-"),
with the sketch suffix appended exactly when the chosen text does not already
end with it. -/
theorem output_path_from_first_arg (o : Opts) (a0 : String)
    (rest rest' : List String) (env env' : String → List String)
    (refs refs' : List SketchRef) (protein protein' : Bool)
    (f f' : List String) (out out' : String) (w w' : Option WarnState)
    (h : run o (a0 :: rest) env refs protein = RunResult.done f out w)
    (h' : run o (a0 :: rest') env' refs' protein' = RunResult.done f' out' w') :
    out = out' ∧
    out = (let pfx := if 0 < o.oArg.length then o.oArg
                      else if a0 = "-" then "stdin" else a0
           if hasSuffix pfx suffixSketch then pfx else pfx ++ suffixSketch) := by
  obtain ⟨-, -, -, ho, -⟩ := run_done_inv o (a0 :: rest) env refs protein f out w h
  obtain ⟨-, -, -, ho', -⟩ :=
    run_done_inv o (a0 :: rest') env' refs' protein' f' out' w' h'
  have hpath : outPathOf o.oArg ((a0 :: rest).headD "") false =
      (let pfx := if 0 < o.oArg.length then o.oArg
                  else if a0 = "-" then "stdin" else a0
       if hasSuffix pfx suffixSketch then pfx else pfx ++ suffixSketch) := by
    simp [outPathOf]
  refine ⟨?_, by rw [ho, hpath]⟩
  rw [ho, ho']
  rfl

theorem output_path_from_first_arg_witness :
    "x.fa.msh" = "x.fa.msh" ∧
    "x.fa.msh" = (let pfx := if 0 < oC10.oArg.length then oC10.oArg
                             else if "x.fa" = "-" then "stdin" else "x.fa"
                  if hasSuffix pfx suffixSketch then pfx else pfx ++ suffixSketch) :=
  output_path_from_first_arg oC10 "x.fa" ["y.fa"] ["z.fa", "w.fa"]
    emptyFS emptyFS [] [] false false
    ["x.fa", "y.fa"] ["x.fa", "z.fa", "w.fa"] "x.fa.msh" "x.fa.msh" none none
    rfl rfl

/-- C3: for a warning probability in `[0,1)`, a reference is flagged by the
scan loop's test (its length strictly exceeds the truncated threshold of line
95) exactly when its length exceeds the exact value
`warning * alphabetSize ^ kmerSize / (1 - warning)`; in particular with
alphabet size 4 (nucleotide input), k-mer size 2 and warning probability 1/100
every reference of length exceeding `1/100 * 16 / (1 - 1/100)` is flagged. -/
theorem flagged_iff_exceeds_threshold (p : Params) (r : SketchRef)
    (h0 : 0 ≤ p.warning) (h1 : p.warning < 1) :
    (lengthThreshold p < r.length ↔
      p.warning * (alphabetSize p : ℚ) ^ p.kmerSize / (1 - p.warning) < (r.length : ℚ)) ∧
    (p.protein = false → p.kmerSize = 2 → p.warning = 1 / 100 →
      (1 : ℚ) / 100 * 16 / (1 - 1 / 100) < (r.length : ℚ) →
      lengthThreshold p < r.length) := by
  have hq : (0 : ℚ) ≤ p.warning * (alphabetSize p : ℚ) ^ p.kmerSize / (1 - p.warning) := by
    apply div_nonneg
    · exact mul_nonneg h0 (pow_nonneg (by positivity) _)
    · linarith
  have hiff : lengthThreshold p < r.length ↔
      p.warning * (alphabetSize p : ℚ) ^ p.kmerSize / (1 - p.warning) < (r.length : ℚ) := by
    rw [lengthThreshold]
    exact Nat.floor_lt hq
  refine ⟨hiff, ?_⟩
  intro hp hk hw hlt
  rw [hiff, hw, hk]
  have ha : (alphabetSize p : ℚ) = 4 := by simp [alphabetSize, hp]
  rw [ha]
  have h16 : ((4 : ℚ)) ^ 2 = 16 := by norm_num
  rw [h16]
  exact hlt

theorem flagged_iff_exceeds_threshold_witness :
    (0 : ℚ) ≤ pC3.warning ∧ pC3.warning < 1 ∧ lengthThreshold pC3 < rC3.length :=
  ⟨by norm_num [pC3], by norm_num [pC3],
    (flagged_iff_exceeds_threshold pC3 rC3 (by norm_num [pC3]) (by norm_num [pC3])).2
      rfl rfl rfl (by norm_num [rC3])⟩

theorem flaggedCount_append_one (t : Nat) (l : List SketchRef) (r : SketchRef) :
    flaggedCount t (l ++ [r]) =
      flaggedCount t l + if t < r.length then 1 else 0 := by
  simp only [flaggedCount, List.filter_append, List.length_append]
  by_cases hf : t < r.length <;> simp [hf]

theorem flaggedCount_eq_zero (t : Nat) (l : List SketchRef)
    (h : flaggedCount t l = 0) : ∀ r ∈ l, ¬ t < r.length := by
  intro r hr hf
  have : (l.filter fun r => decide (t < r.length)) = [] :=
    List.length_eq_zero.mp h
  have hmem : r ∈ l.filter fun r => decide (t < r.length) :=
    List.mem_filter.mpr ⟨hr, by simpa using hf⟩
  rw [this] at hmem
  simp at hmem

theorem warnStep_inv (t : Nat) (seen : List SketchRef) (s : WarnState)
    (r : SketchRef) (h : WarnInv t seen s) :
    WarnInv t (seen ++ [r]) (warnStep t s r) := by
  obtain ⟨hc, hrest⟩ := h
  by_cases hf : t < r.length
  · by_cases hnew : s.warningCount = 0 ∨ s.lengthMax < r.length
    · have hstep : warnStep t s r =
          { lengthMax := r.length, lengthMaxName := r.name
            randomChance := r.randomChance, kMin := r.kMin
            warningCount := s.warningCount + 1 } := by
        simp [warnStep, hf, hnew]
      rw [hstep]
      refine ⟨?_, fun _ => ⟨⟨r, by simp, hf, rfl, rfl, rfl, rfl⟩, ?_⟩⟩
      · rw [flaggedCount_append_one, if_pos hf, hc]
      · intro y hy hyf
        rcases List.mem_append.mp hy with hy' | hy'
        · rcases hnew with hz | hlt
          · exact absurd hyf (flaggedCount_eq_zero t seen (hz ▸ hc.symm) y hy')
          · rcases Nat.eq_zero_or_pos s.warningCount with hz | hpos
            · exact absurd hyf (flaggedCount_eq_zero t seen (hz ▸ hc.symm) y hy')
            · exact le_trans ((hrest hpos).2 y hy' hyf) (le_of_lt hlt)
        · simp only [List.mem_singleton] at hy'
          exact hy' ▸ le_refl _
    · push_neg at hnew
      obtain ⟨hz, hle⟩ := hnew
      have hpos : 0 < s.warningCount := Nat.pos_of_ne_zero hz
      have hstep : warnStep t s r = { s with warningCount := s.warningCount + 1 } := by
        rw [warnStep, if_pos hf, if_neg]
        push_neg
        exact ⟨hz, hle⟩
      rw [hstep]
      obtain ⟨⟨x, hx, hxf, hxe⟩, hbound⟩ := hrest hpos
      refine ⟨?_, fun _ => ⟨⟨x, List.mem_append.mpr (Or.inl hx), hxf, hxe⟩, ?_⟩⟩
      · rw [flaggedCount_append_one, if_pos hf, hc]
      · intro y hy hyf
        rcases List.mem_append.mp hy with hy' | hy'
        · exact hbound y hy' hyf
        · simp only [List.mem_singleton] at hy'
          subst hy'
          exact hle
  · have hstep : warnStep t s r = s := by simp [warnStep, hf]
    rw [hstep]
    refine ⟨?_, fun hpos => ?_⟩
    · rw [flaggedCount_append_one, if_neg hf, hc, Nat.add_zero]
    · obtain ⟨⟨x, hx, hxf, hxe⟩, hbound⟩ := hrest hpos
      refine ⟨⟨x, List.mem_append.mpr (Or.inl hx), hxf, hxe⟩, ?_⟩
      intro y hy hyf
      rcases List.mem_append.mp hy with hy' | hy'
      · exact hbound y hy' hyf
      · simp only [List.mem_singleton] at hy'
        subst hy'
        exact absurd hyf hf

theorem warnFold_inv (t : Nat) :
    ∀ (l seen : List SketchRef) (s : WarnState), WarnInv t seen s →
      WarnInv t (seen ++ l) (l.foldl (warnStep t) s)
  | [], seen, s, h => by simpa using h
  | r :: l, seen, s, h => by
      have h2 := warnFold_inv t l (seen ++ [r]) (warnStep t s r) (warnStep_inv t seen s r h)
      rw [List.foldl_cons]
      simpa [List.append_assoc] using h2

theorem adequacyScan_inv (p : Params) (refs : List SketchRef) :
    WarnInv (lengthThreshold p) refs (adequacyScan p refs) := by
  have h0 : WarnInv (lengthThreshold p) [] warnInit := by
    refine ⟨by simp [warnInit, flaggedCount], fun hpos => ?_⟩
    simp [warnInit] at hpos
  simpa using warnFold_inv (lengthThreshold p) refs [] warnInit h0

theorem warnCallOf_some (p : Params) (refs : List SketchRef) (w : WarnState)
    (h : warnCallOf p refs = some w) :
    w = adequacyScan p refs ∧ 0 < (adequacyScan p refs).warningCount ∧
      p.reads = false := by
  rw [warnCallOf] at h
  split at h
  · next hcond => exact ⟨(Option.some_inj.mp h).symm, hcond.1, hcond.2⟩
  · exact absurd h (by simp)

/-- C4: whenever the warning call is made, it reports the flagged-reference
count together with the length, name, random-k-mer chance and minimum k-mer
size of a flagged reference whose length is maximal among all flagged
references - so no other flagged reference's data is reported. -/
theorem warning_reports_worst_offender (o : Opts) (args : List String)
    (env : String → List String) (refs : List SketchRef) (protein : Bool)
    (f : List String) (out : String) (w : WarnState)
    (h : run o args env refs protein = RunResult.done f out (some w)) :
    w.warningCount = (refs.filter fun r =>
      decide (lengthThreshold (buildParams o protein) < r.length)).length ∧
    (∃ r ∈ refs, lengthThreshold (buildParams o protein) < r.length ∧
      w.lengthMax = r.length ∧ w.lengthMaxName = r.name ∧
      w.randomChance = r.randomChance ∧ w.kMin = r.kMin) ∧
    (∀ r ∈ refs, lengthThreshold (buildParams o protein) < r.length →
      r.length ≤ w.lengthMax) := by
  obtain ⟨-, -, -, -, hw⟩ := run_done_inv o args env refs protein f out (some w) h
  obtain ⟨hws, hpos, -⟩ := warnCallOf_some (buildParams o protein) refs w hw.symm
  rw [← hws] at hpos
  have hinv := adequacyScan_inv (buildParams o protein) refs
  rw [← hws] at hinv
  obtain ⟨hc, hrest⟩ := hinv
  obtain ⟨hex, hbound⟩ := hrest hpos
  exact ⟨hc, hex, hbound⟩

theorem warning_reports_worst_offender_witness :
    wC4.warningCount = (refsC4.filter fun r =>
      decide (lengthThreshold (buildParams oC4 false) < r.length)).length ∧
    (∃ r ∈ refsC4, lengthThreshold (buildParams oC4 false) < r.length ∧
      wC4.lengthMax = r.length ∧ wC4.lengthMaxName = r.name ∧
      wC4.randomChance = r.randomChance ∧ wC4.kMin = r.kMin) ∧
    (∀ r ∈ refsC4, lengthThreshold (buildParams oC4 false) < r.length →
      r.length ≤ wC4.lengthMax) :=
  warning_reports_worst_offender oC4 ["a.fasta"] emptyFS refsC4 false
    ["a.fasta"] "a.fasta.msh" wC4 (by
      have ht : lengthThreshold (buildParams oC4 false) = 0 := by
        simp [lengthThreshold, buildParams, alphabetSize, oC4]
        norm_num
      have hreads : (buildParams oC4 false).reads = false := rfl
      have hcat : (buildParams oC4 false).concatenated = true := rfl
      have hwind : (buildParams oC4 false).windowed = false := rfl
      have hlist : oC4.list = false := rfl
      have hhelp : oC4.help = false := rfl
      have harg : oC4.oArg = "" := rfl
      simp [run, warnCallOf, adequacyScan, warnStep, warnInit,
        expandFiles, splitFile, outPathOf, alreadySketchedGuard, hasSuffix,
        suffixSketch, refsC4, wC4, emptyFS, ht, hreads, hcat, hwind, hlist,
        hhelp, harg]
      decide)

end MashSketch
